import Mathlib

/-!
Verification of the line-detection-and-clustering design of this repository.

The I/O layer (thermography/io/io.py) is embedded directly from the source:
the filesystem, the video stream and the image decoder are explicit function
arguments, Python exceptions become an error type returned through Except.
The detection/clustering core described by the design document is not part of
the source tree (main.py only calls it), so it is modelled from the
specification, as marked on each such definition.
-/

/-- Python exceptions that the embedded io.py code can produce. -/
inductive PyError where
  | attributeError (msg : String)
  | fileExistsError (msg : String)
  | valueError (msg : String)
  | runtimeWarning (msg : String)
deriving DecidableEq

/-- State of a constructed ImageLoader (io.py lines 9-19): the validated path
and the result of cv2.imread, which is None when the file cannot be decoded. -/
structure ImageLoader where
  image_path : String
  image_raw : Option Nat
deriving DecidableEq

/-- Embeds the ImageLoader.image_path setter (io.py lines 34-38).  When the path
does not exist, Python first evaluates the message argument
`"Image file {} not found".format(self.image_path)`; the property getter reads
the private attribute `__image_path`, which is still unset during construction,
so an AttributeError escapes before the FileExistsError can be raised.  `fs`
models os.path.exists and `prev` the previously stored path, if any. -/
def imagePathSet (fs : String → Bool) (prev : Option String) (path : String) :
    Except PyError String :=
  if fs path then .ok path
  else
    match prev with
    | none => .error (.attributeError
        "ImageLoader object has no attribute _ImageLoader__image_path")
    | some old => .error (.fileExistsError ("Image file " ++ old ++ " not found"))

/-- Embeds ImageLoader.__init__ (io.py lines 10-19): validate the path through
the property setter, then store cv2.imread's result, which is None on decode
failure.  `dec` models cv2.imread at the loader's modality. -/
def imageLoaderInit (fs : String → Bool) (dec : String → Option Nat) (path : String) :
    Except PyError ImageLoader :=
  match imagePathSet fs none path with
  | .error e => .error e
  | .ok p => .ok ⟨p, dec p⟩

/-- Opened video stream as seen through cv2.VideoCapture: a frame count
(CAP_PROP_FRAME_COUNT) and the pixel buffer of each frame index; grab()
succeeds exactly on positions below the frame count. -/
structure Video where
  total : Nat
  frame : Nat → Nat

/-- State of a constructed VideoLoader (io.py lines 41-56). -/
structure VideoLoader where
  video_path : String
  start_frame : Nat
  end_frame : Nat
  frames : List Nat
deriving DecidableEq

/-- Embeds the VideoLoader.video_path setter (io.py lines 73-77), with the same
unset-attribute behaviour as the ImageLoader setter. -/
def videoPathSet (fs : String → Bool) (prev : Option String) (path : String) :
    Except PyError String :=
  if fs path then .ok path
  else
    match prev with
    | none => .error (.attributeError
        "VideoLoader object has no attribute _VideoLoader__video_path")
    | some old => .error (.fileExistsError ("Video file " ++ old ++ " not found"))

/-- Embeds the frame loop of VideoLoader.__load_video (io.py lines 99-110),
processing stream positions startf+i, ..., startf+i+n-1.  The out-of-range
branch of the source only constructs a RuntimeWarning value and discards it
(there is no raise), which the discarded let binding mirrors; a failed grab
raises ValueError naming the position. -/
def loadLoop (v : Video) (startf endf : Nat) : Nat → Nat → Except PyError (List Nat)
  | 0, _ => .ok []
  | n + 1, i =>
    let _warning : Option PyError :=
      if v.total ≤ startf + i then
        some (.runtimeWarning ("end_frame=" ++ toString endf ++
          " passed to VideoLoader is greater than video size " ++ toString v.total ++
          ".Closing video stream now."))
      else none
    if startf + i < v.total then
      match loadLoop v startf endf n (i + 1) with
      | .ok rest => .ok (v.frame (startf + i) :: rest)
      | .error e => .error e
    else .error (.valueError ("Could not load frame " ++ toString (startf + i)))

/-- Embeds VideoLoader.__init__ together with __load_video (io.py lines 42-113):
validate the path, default end_frame to the stream's frame count when None,
then load the frame range; printing and the progress bar have no effect on the
result and are omitted.  `videos` models cv2.VideoCapture on existing paths. -/
def videoLoaderInit (fs : String → Bool) (videos : String → Video) (path : String)
    (startf : Nat) (endOpt : Option Nat) : Except PyError VideoLoader :=
  match videoPathSet fs none path with
  | .error e => .error e
  | .ok p =>
    let v := videos p
    let endf := endOpt.getD v.total
    match loadLoop v startf endf (endf - startf) 0 with
    | .error e => .error e
    | .ok fr => .ok ⟨p, startf, endf, fr⟩

theorem loadLoop_ok (v : Video) (startf endf : Nat) :
    ∀ (n i : Nat), startf + i + n ≤ v.total →
      loadLoop v startf endf n i =
        .ok ((List.range n).map (fun j => v.frame (startf + i + j))) := by
  intro n
  induction n with
  | zero => intro i _; rfl
  | succ m ih =>
    intro i h
    have h1 : startf + i < v.total := by omega
    have h2 : startf + (i + 1) + m ≤ v.total := by omega
    have hfun : (fun j => v.frame (startf + (i + 1) + j)) =
        (fun j => v.frame (startf + i + Nat.succ j)) := by
      funext j; congr 1; omega
    simp only [loadLoop, if_pos h1, ih (i + 1) h2]
    rw [List.range_succ_eq_map, List.map_cons, List.map_map]
    simp [Function.comp_def, hfun]

theorem loadLoop_error (v : Video) (startf endf : Nat) :
    ∀ (n i : Nat), v.total < startf + i + n + 1 →
      loadLoop v startf endf (n + 1) i =
        .error (.valueError ("Could not load frame " ++
          toString (max (startf + i) v.total))) := by
  intro n
  induction n with
  | zero =>
    intro i h
    have h1 : ¬ startf + i < v.total := by omega
    have h2 : max (startf + i) v.total = startf + i := by omega
    simp [loadLoop, h1, h2]
  | succ m ih =>
    intro i h
    by_cases h1 : startf + i < v.total
    · have h2 : v.total < startf + (i + 1) + m + 1 := by omega
      have h3 : max (startf + (i + 1)) v.total = v.total := by omega
      have h4 : max (startf + i) v.total = v.total := by omega
      rw [h4]
      rw [loadLoop]
      simp only [if_pos h1, ih (i + 1) h2, h3]
    · have h2 : max (startf + i) v.total = startf + i := by omega
      simp [loadLoop, h1, h2]

theorem videoLoaderInit_exists (fs : String → Bool) (videos : String → Video)
    (path : String) (startf : Nat) (endOpt : Option Nat) (hfs : fs path = true) :
    videoLoaderInit fs videos path startf endOpt =
      match loadLoop (videos path) startf (endOpt.getD (videos path).total)
          (endOpt.getD (videos path).total - startf) 0 with
      | .error e => .error e
      | .ok fr => .ok ⟨path, startf, endOpt.getD (videos path).total, fr⟩ := by
  simp [videoLoaderInit, videoPathSet, hfs]

/-- Claim C1: at a missing path, ImageLoader and VideoLoader construction does
fail immediately, but with an AttributeError — formatting the not-found message
reads the path property before it has ever been set — not with a not-found
error as the design requires. -/
theorem loaders_missing_path_attribute_error :
    imageLoaderInit (fun _ => false) (fun _ => none) "missing.jpg" =
        .error (.attributeError
          "ImageLoader object has no attribute _ImageLoader__image_path") ∧
      videoLoaderInit (fun _ => false) (fun _ => ⟨0, fun k => k⟩) "missing.avi" 0 none =
        .error (.attributeError
          "VideoLoader object has no attribute _VideoLoader__video_path") :=
  ⟨rfl, rfl⟩

/-- Claim C2: every VideoLoader invocation either produces the full requested
frame range or surfaces an error; an ok result always carries exactly the
frames of the requested range, never a partial sequence. -/
theorem videoLoader_no_partial_output (fs : String → Bool) (videos : String → Video)
    (path : String) (startf : Nat) (endOpt : Option Nat) :
    (∃ e, videoLoaderInit fs videos path startf endOpt = .error e) ∨
      videoLoaderInit fs videos path startf endOpt =
        .ok ⟨path, startf, endOpt.getD (videos path).total,
          (List.range (endOpt.getD (videos path).total - startf)).map
            (fun j => (videos path).frame (startf + j))⟩ := by
  cases hfs : fs path with
  | false =>
    left
    refine ⟨.attributeError "VideoLoader object has no attribute _VideoLoader__video_path", ?_⟩
    simp [videoLoaderInit, videoPathSet, hfs]
  | true =>
    rw [videoLoaderInit_exists fs videos path startf endOpt hfs]
    cases hn : endOpt.getD (videos path).total - startf with
    | zero =>
      right
      simp [loadLoop]
    | succ m =>
      by_cases hle : startf + 0 + (m + 1) ≤ (videos path).total
      · right
        rw [loadLoop_ok (videos path) startf _ (m + 1) 0 hle]
        simp
      · left
        have h : (videos path).total < startf + 0 + m + 1 := by omega
        rw [loadLoop_error (videos path) startf _ m 0 h]
        exact ⟨_, rfl⟩

/-- Claim C3: for an existing video and start_frame ≤ end_frame ≤ frame count,
the loader returns exactly the frames start_frame, ..., end_frame - 1, that is
end_frame - start_frame frames; a missing end_frame defaults to the video's
total frame count. -/
theorem videoLoader_bounded_frame_range (fs : String → Bool) (videos : String → Video)
    (path : String) (startf endf : Nat) (hfs : fs path = true)
    (h1 : startf ≤ endf) (h2 : endf ≤ (videos path).total) :
    videoLoaderInit fs videos path startf (some endf) =
        .ok ⟨path, startf, endf,
          (List.range (endf - startf)).map (fun j => (videos path).frame (startf + j))⟩ ∧
      ((List.range (endf - startf)).map
        (fun j => (videos path).frame (startf + j))).length = endf - startf ∧
      videoLoaderInit fs videos path startf none =
        videoLoaderInit fs videos path startf (some (videos path).total) := by
  refine ⟨?_, by simp, ?_⟩
  · rw [videoLoaderInit_exists fs videos path startf (some endf) hfs]
    have hle : startf + 0 + ((some endf).getD (videos path).total - startf) ≤
        (videos path).total := by
      simp only [Option.getD_some]; omega
    rw [loadLoop_ok (videos path) startf _ _ 0 hle]
    simp
  · rw [videoLoaderInit_exists fs videos path startf none hfs,
      videoLoaderInit_exists fs videos path startf (some (videos path).total) hfs]
    simp only [Option.getD_none, Option.getD_some]

/-- Witness for claim C3 at a concrete three-frame video, loading frames 1 and 2. -/
theorem videoLoader_bounded_frame_range_witness :
    videoLoaderInit (fun _ => true) (fun _ => ⟨3, fun k => k⟩) "v.avi" 1 (some 3) =
        .ok ⟨"v.avi", 1, 3, [1, 2]⟩ ∧ 1 ≤ 3 ∧ 3 ≤ 3 :=
  ⟨(videoLoader_bounded_frame_range (fun _ => true) (fun _ => ⟨3, fun k => k⟩) "v.avi" 1 3
      rfl (by decide) (by decide)).1, by decide, by decide⟩

/-- Claim C9: when the path exists on disk but cv2 cannot decode it, ImageLoader
construction succeeds without raising and image_raw is None. -/
theorem imageLoader_silent_decode_failure (fs : String → Bool)
    (dec : String → Option Nat) (path : String)
    (hfs : fs path = true) (hdec : dec path = none) :
    imageLoaderInit fs dec path = .ok ⟨path, none⟩ := by
  simp [imageLoaderInit, imagePathSet, hfs, hdec]

/-- Witness for claim C9 at a concrete existing-but-undecodable path. -/
theorem imageLoader_silent_decode_failure_witness :
    imageLoaderInit (fun _ => true) (fun _ => none) "bad.jpg" = .ok ⟨"bad.jpg", none⟩ :=
  imageLoader_silent_decode_failure _ _ _ rfl rfl

/-- Counterexample to claim C10 as stated: with a zero-frame video and
start_frame = end_frame = 1, end_frame exceeds the frame count, yet the loop
body never runs, so the loader returns an empty frame list instead of raising
ValueError from a failed grab. -/
theorem videoLoader_end_past_total_counterexample :
    (Video.mk 0 (fun k => k)).total < 1 ∧
      videoLoaderInit (fun _ => true) (fun _ => ⟨0, fun k => k⟩) "v.avi" 1 (some 1) =
        .ok ⟨"v.avi", 1, 1, []⟩ :=
  ⟨by decide, rfl⟩

/-- Claim C10 (amended): when end_frame exceeds the video's frame count and
start_frame < end_frame, the RuntimeWarning constructed on the out-of-range
branch is never surfaced; the loader instead raises the ValueError of the
first failed frame grab, at position max start_frame total. -/
theorem videoLoader_end_past_total_value_error (fs : String → Bool)
    (videos : String → Video) (path : String) (startf endf : Nat)
    (hfs : fs path = true) (hend : (videos path).total < endf) (hse : startf < endf) :
    videoLoaderInit fs videos path startf (some endf) =
        .error (.valueError ("Could not load frame " ++
          toString (max startf (videos path).total))) ∧
      ∀ m, videoLoaderInit fs videos path startf (some endf) ≠
        .error (.runtimeWarning m) := by
  have hmain : videoLoaderInit fs videos path startf (some endf) =
      .error (.valueError ("Could not load frame " ++
        toString (max startf (videos path).total))) := by
    rw [videoLoaderInit_exists fs videos path startf (some endf) hfs]
    have hn : (some endf).getD (videos path).total - startf = (endf - startf - 1) + 1 := by
      simp only [Option.getD_some]; omega
    rw [hn]
    have h : (videos path).total < startf + 0 + (endf - startf - 1) + 1 := by omega
    rw [loadLoop_error (videos path) startf _ _ 0 h]
    simp
  refine ⟨hmain, fun m hcontra => ?_⟩
  rw [hmain] at hcontra
  simp at hcontra

/-- Witness for claim C10 at a concrete two-frame video asked for five frames. -/
theorem videoLoader_end_past_total_value_error_witness :
    videoLoaderInit (fun _ => true) (fun _ => ⟨2, fun k => k⟩) "v.avi" 0 (some 5) =
        .error (.valueError ("Could not load frame " ++ toString (max 0 2))) ∧
      ∀ m, videoLoaderInit (fun _ => true) (fun _ => ⟨2, fun k => k⟩) "v.avi" 0 (some 5) ≠
        .error (.runtimeWarning m) :=
  videoLoader_end_past_total_value_error _ _ _ _ _ rfl (by decide) (by decide)

/-- Modelled from the spec: a detected Segment of the missing
detection/clustering core — an ordered pair of 2D integer endpoints in pixel
coordinates (design document section 3). -/
structure Segment where
  x1 : Int
  y1 : Int
  x2 : Int
  y2 : Int
deriving DecidableEq

/-- Feature vector of a segment: a pair of exact rationals standing for the
doubled-angle orientation embedding of the design. -/
abbrev Feature := Rat × Rat

/-- Squared Euclidean distance between two feature vectors. -/
def sqDist (p q : Feature) : Rat :=
  (p.1 - q.1) * (p.1 - q.1) + (p.2 - q.2) * (p.2 - q.2)

/-- Modelled from the spec: a seedable generator standing in for the random
source of initial-centroid selection of the missing OrientationClusterer; the
design fixes only that the randomness is seedable, not the generator. -/
def lcgNext (g : Nat) : Nat := (g * 1103515245 + 12345) % 2147483648

/-- State of the generator after k draws. -/
def lcgIter (g : Nat) : Nat → Nat
  | 0 => g
  | k + 1 => lcgIter (lcgNext g) k

/-- Modelled from the spec: k indices into the n data points, drawn from
successive generator states, selecting the random initial centroids. -/
def drawIndices (n : Nat) : Nat → Nat → List Nat
  | _, 0 => []
  | g, k + 1 => lcgNext g % n :: drawIndices n (lcgNext g) k

/-- Scan of the centroid tail at positions i, i+1, ... carrying the best index
and best squared distance seen so far; only a strictly smaller distance
replaces the best, so the first centroid of a tie wins. -/
def nearestGo (p : Feature) : List Feature → Nat → Nat → Rat → Nat
  | [], _, best, _ => best
  | c :: rest, i, best, bd =>
    if sqDist p c < bd then nearestGo p rest (i + 1) i (sqDist p c)
    else nearestGo p rest (i + 1) best bd

/-- Modelled from the spec: assignment step of the partitioning algorithm —
each point goes to the nearest centroid, the first such centroid on a tie. -/
def nearestCentroid (p : Feature) : List Feature → Nat
  | [] => 0
  | c :: rest => nearestGo p rest 1 0 (sqDist p c)

/-- Labels of all points against a fixed centroid list. -/
def assignAll (cs ps : List Feature) : List Nat :=
  ps.map (fun p => nearestCentroid p cs)

/-- Points of ps carrying label k under the given assignment. -/
def clusterPoints (ps : List Feature) (labels : List Nat) (k : Nat) : List Feature :=
  ((ps.zip labels).filter (fun pl => pl.2 == k)).map Prod.fst

/-- Arithmetic mean of a list of feature vectors. -/
def meanFeature (pts : List Feature) : Feature :=
  ((pts.map Prod.fst).sum / (pts.length : Rat), (pts.map Prod.snd).sum / (pts.length : Rat))

/-- Modelled from the spec: update step — each centroid becomes the mean of its
assigned points; a centroid whose cluster is empty is kept unchanged, an empty
cluster being valid output rather than an error. -/
def updateCentroids (ps : List Feature) (labels : List Nat) (cs : List Feature) :
    List Feature :=
  (List.range cs.length).map (fun k =>
    if (clusterPoints ps labels k).isEmpty then cs.getD k (0, 0)
    else meanFeature (clusterPoints ps labels k))

/-- Modelled from the spec: one k-means run — iterate assignment and centroid
update until the assignment stops changing or the iteration bound is spent;
returns the final assignment with the centroids it was taken against. -/
def kmeansLoop (ps : List Feature) : Nat → List Feature → List Nat × List Feature
  | 0, cs => (assignAll cs ps, cs)
  | fuel + 1, cs =>
    if assignAll (updateCentroids ps (assignAll cs ps) cs) ps = assignAll cs ps then
      (assignAll cs ps, updateCentroids ps (assignAll cs ps) cs)
    else kmeansLoop ps fuel (updateCentroids ps (assignAll cs ps) cs)

/-- Modelled from the spec: within-cluster dispersion — the sum of squared
distances from each point to its assigned centroid. -/
def dispersion (ps : List Feature) (labels : List Nat) (cs : List Feature) : Rat :=
  ((ps.zip labels).map (fun pl => sqDist pl.1 (cs.getD pl.2 (0, 0)))).sum

/-- Initial centroids of one restart: K points of ps drawn by the generator. -/
def initCentroids (ps : List Feature) (K g : Nat) : List Feature :=
  (drawIndices ps.length g K).map (fun i => ps.getD i (0, 0))

/-- Assignment produced by the restart started at generator state g. -/
def runAssign (ps : List Feature) (K maxIter g : Nat) : List Nat :=
  (kmeansLoop ps maxIter (initCentroids ps K g)).1

/-- Dispersion achieved by the restart started at generator state g. -/
def runDispersion (ps : List Feature) (K maxIter g : Nat) : Rat :=
  dispersion ps (runAssign ps K maxIter g) (kmeansLoop ps maxIter (initCentroids ps K g)).2

/-- Modelled from the spec: the R independent restarts in restart order, each
paired with its dispersion; the generator state threads through the restarts,
fixing the restart order relative to the seed. -/
def restartResults (ps : List Feature) (K maxIter : Nat) :
    Nat → Nat → List (List Nat × Rat)
  | _, 0 => []
  | g, r + 1 =>
    (runAssign ps K maxIter g, runDispersion ps K maxIter g) ::
      restartResults ps K maxIter (lcgIter g K) r

/-- Modelled from the spec: minimal-dispersion selection over the restarts; a
later restart replaces the current best only on strictly smaller dispersion, so
the first restart of an exact tie is kept. -/
def selectBest : List Nat × Rat → List (List Nat × Rat) → List Nat × Rat
  | best, [] => best
  | best, r :: rest => if r.2 < best.2 then selectBest r rest else selectBest best rest

/-- Error taxonomy entry of the design for parameter contract violations. -/
inductive ClusterError where
  | invalidParameter
deriving DecidableEq

/-- Modelled from the spec: OrientationClusterer.cluster (design document
section 4.2), absent from the source tree — main.py only calls it.  Parameters
outside the documented contract (K < 1, K > N and hence N = 0 with K ≥ 1, or
R < 1) fail fast with InvalidParameter; otherwise R seeded restarts of the
partitioning algorithm run and the assignment of the first restart achieving
minimal dispersion is returned.  `phi` is the per-segment feature map, the
doubled-angle orientation embedding in the design. -/
def cluster (phi : Segment → Feature) (seed : Nat) (segments : List Segment)
    (K R maxIter : Nat) : Except ClusterError (List Nat) :=
  if K < 1 ∨ segments.length < K ∨ R < 1 then .error .invalidParameter
  else
    match restartResults (segments.map phi) K maxIter seed R with
    | [] => .error .invalidParameter
    | r :: rest => .ok (selectBest r rest).1

/-- Modelled from the spec: detection parameters of the missing LineDetector;
field names follow the caller in main.py lines 23-26. -/
structure LineDetectorParams where
  min_line_length : Nat
  min_num_votes : Nat
  max_line_gap : Nat
deriving DecidableEq

/-- Edge map as the list of its edge-pixel coordinates. -/
abbrev EdgeMap := List (Int × Int)

/-- Squared Euclidean length of a segment. -/
def lengthSq (s : Segment) : Int :=
  (s.x2 - s.x1) * (s.x2 - s.x1) + (s.y2 - s.y1) * (s.y2 - s.y1)

/-- Modelled from the spec: a pixel is consistent with a candidate segment when
it is collinear with the endpoints and inside their bounding box. -/
def onSegment (s : Segment) (p : Int × Int) : Bool :=
  ((s.y2 - s.y1) * (p.1 - s.x1) == (s.x2 - s.x1) * (p.2 - s.y1)) &&
    (decide (min s.x1 s.x2 ≤ p.1) && decide (p.1 ≤ max s.x1 s.x2)) &&
    (decide (min s.y1 s.y2 ≤ p.2) && decide (p.2 ≤ max s.y1 s.y2))

/-- Modelled from the spec: vote support — the count of edge pixels consistent
with the candidate line. -/
def voteSupport (edges : EdgeMap) (s : Segment) : Nat :=
  (edges.filter (onSegment s)).length

/-- Modelled from the spec: SegmentExtractor.detect (design document section
4.1), absent from the source tree; its vote-accumulation and gap-merging
primitive is external and deliberately unspecified (section 9), so the
candidate enumeration is an explicit argument, while the acceptance filter
(length and vote thresholds) and the removal of duplicate segments are
modelled from the specification. -/
def detect (edges : EdgeMap) (candidates : List Segment) (params : LineDetectorParams) :
    List Segment :=
  (candidates.filter (fun s =>
    decide ((params.min_line_length : Int) * (params.min_line_length : Int) ≤ lengthSq s) &&
      decide (params.min_num_votes ≤ voteSupport edges s))).dedup

theorem nearestGo_lt (p : Feature) :
    ∀ (l : List Feature) (i best : Nat) (bd : Rat), best < i →
      nearestGo p l i best bd < i + l.length := by
  intro l
  induction l with
  | nil => intro i best bd h; simp only [nearestGo, List.length_nil]; omega
  | cons c rest ih =>
    intro i best bd h
    simp only [nearestGo, List.length_cons]
    by_cases hlt : sqDist p c < bd
    · rw [if_pos hlt]
      have := ih (i + 1) i (sqDist p c) (by omega)
      omega
    · rw [if_neg hlt]
      have := ih (i + 1) best bd (by omega)
      omega

theorem nearestCentroid_lt (p : Feature) (cs : List Feature) (h : 0 < cs.length) :
    nearestCentroid p cs < cs.length := by
  cases cs with
  | nil => simp at h
  | cons c rest =>
    have := nearestGo_lt p rest 1 0 (sqDist p c) (by omega)
    simp only [nearestCentroid, List.length_cons]
    omega

theorem assignAll_lt (cs ps : List Feature) (h : 0 < cs.length) :
    ∀ l ∈ assignAll cs ps, l < cs.length := by
  intro l hl
  obtain ⟨q, _, rfl⟩ := List.mem_map.mp hl
  exact nearestCentroid_lt q cs h

theorem updateCentroids_length (ps : List Feature) (labels : List Nat)
    (cs : List Feature) : (updateCentroids ps labels cs).length = cs.length := by
  simp [updateCentroids]

theorem kmeansLoop_fst (ps : List Feature) :
    ∀ (fuel : Nat) (cs : List Feature), ∃ c : List Feature,
      (kmeansLoop ps fuel cs).1 = assignAll c ps ∧ c.length = cs.length := by
  intro fuel
  induction fuel with
  | zero => intro cs; exact ⟨cs, rfl, rfl⟩
  | succ m ih =>
    intro cs
    by_cases hstop :
        assignAll (updateCentroids ps (assignAll cs ps) cs) ps = assignAll cs ps
    · refine ⟨cs, ?_, rfl⟩
      simp [kmeansLoop, hstop]
    · obtain ⟨c, hc1, hc2⟩ := ih (updateCentroids ps (assignAll cs ps) cs)
      refine ⟨c, ?_, ?_⟩
      · simp only [kmeansLoop, if_neg hstop]
        exact hc1
      · rw [hc2, updateCentroids_length]

theorem drawIndices_length (n : Nat) : ∀ (k g : Nat), (drawIndices n g k).length = k := by
  intro k
  induction k with
  | zero => intro g; rfl
  | succ m ih => intro g; simp [drawIndices, ih]

theorem initCentroids_length (ps : List Feature) (K g : Nat) :
    (initCentroids ps K g).length = K := by
  simp [initCentroids, drawIndices_length]

theorem runAssign_spec (ps : List Feature) (K maxIter g : Nat) (hK : 0 < K) :
    (runAssign ps K maxIter g).length = ps.length ∧
      ∀ l ∈ runAssign ps K maxIter g, l < K := by
  obtain ⟨c, hc1, hc2⟩ := kmeansLoop_fst ps maxIter (initCentroids ps K g)
  have hlen : c.length = K := by rw [hc2, initCentroids_length]
  rw [runAssign, hc1]
  refine ⟨by simp [assignAll], fun l hl => ?_⟩
  have := assignAll_lt c ps (by omega) l hl
  omega

theorem restartResults_spec (ps : List Feature) (K maxIter : Nat) (hK : 0 < K) :
    ∀ (R g : Nat) (res : List Nat × Rat), res ∈ restartResults ps K maxIter g R →
      res.1.length = ps.length ∧ ∀ l ∈ res.1, l < K := by
  intro R
  induction R with
  | zero => intro g res h; simp [restartResults] at h
  | succ r ih =>
    intro g res h
    rw [restartResults] at h
    rcases List.mem_cons.mp h with h1 | h2
    · subst h1
      exact runAssign_spec ps K maxIter g hK
    · exact ih (lcgIter g K) res h2

theorem selectBest_le :
    ∀ (rest : List (List Nat × Rat)) (best : List Nat × Rat),
      (selectBest best rest).2 ≤ best.2 := by
  intro rest
  induction rest with
  | nil => intro best; exact le_refl _
  | cons r rest ih =>
    intro best
    by_cases hlt : r.2 < best.2
    · rw [selectBest, if_pos hlt]
      exact le_of_lt (lt_of_le_of_lt (ih r) hlt)
    · rw [selectBest, if_neg hlt]
      exact ih best

theorem selectBest_spec :
    ∀ (rest : List (List Nat × Rat)) (first : List Nat × Rat),
      ∃ pre post, first :: rest = pre ++ selectBest first rest :: post ∧
        (∀ x ∈ pre, (selectBest first rest).2 < x.2) ∧
        (∀ x ∈ post, (selectBest first rest).2 ≤ x.2) := by
  intro rest
  induction rest with
  | nil =>
    intro first
    exact ⟨[], [], rfl, by simp, by simp⟩
  | cons r rest ih =>
    intro first
    by_cases hlt : r.2 < first.2
    · rw [selectBest, if_pos hlt]
      obtain ⟨pre, post, hdec, hpre, hpost⟩ := ih r
      refine ⟨first :: pre, post, ?_, ?_, hpost⟩
      · rw [List.cons_append, ← hdec]
      · intro x hx
        rcases List.mem_cons.mp hx with rfl | hx'
        · exact lt_of_le_of_lt (selectBest_le rest r) hlt
        · exact hpre x hx'
    · rw [selectBest, if_neg hlt]
      obtain ⟨pre, post, hdec, hpre, hpost⟩ := ih first
      cases pre with
      | nil =>
        simp only [List.nil_append] at hdec
        injection hdec with hb hp
        refine ⟨[], r :: rest, ?_, by simp, ?_⟩
        · rw [List.nil_append, ← hb]
        · intro x hx
          rcases List.mem_cons.mp hx with rfl | hx'
          · rw [← hb]
            exact not_lt.mp hlt
          · rw [← hp] at hpost
            exact hpost x hx'
      | cons q pre' =>
        rw [List.cons_append] at hdec
        injection hdec with hb hp
        refine ⟨first :: r :: pre', post, ?_, ?_, hpost⟩
        · rw [List.cons_append, List.cons_append, ← hp]
        · intro x hx
          have hq := hpre q (List.mem_cons_self q pre')
          rw [← hb] at hq
          rcases List.mem_cons.mp hx with heq | hx'
          · rw [heq]
            exact hq
          · rcases List.mem_cons.mp hx' with heq | hx''
            · rw [heq]
              exact lt_of_lt_of_le hq (not_lt.mp hlt)
            · exact hpre x (List.mem_cons_of_mem q hx'')

theorem selectBest_mem :
    ∀ (rest : List (List Nat × Rat)) (first : List Nat × Rat),
      selectBest first rest ∈ first :: rest := by
  intro rest first
  obtain ⟨pre, post, hdec, _, _⟩ := selectBest_spec rest first
  rw [hdec]
  exact List.mem_append.mpr (Or.inr (List.mem_cons_self _ _))

/-- Claim C4: for 1 ≤ K ≤ N (and R within its documented bound R ≥ 1), cluster
produces an assignment with exactly N entries, every label in [0, K). -/
theorem cluster_label_count_and_range (phi : Segment → Feature) (seed : Nat)
    (segments : List Segment) (K R maxIter : Nat)
    (hK : 1 ≤ K) (hKN : K ≤ segments.length) (hR : 1 ≤ R) :
    ∃ labels, cluster phi seed segments K R maxIter = .ok labels ∧
      labels.length = segments.length ∧ ∀ l ∈ labels, l < K := by
  have hcond : ¬(K < 1 ∨ segments.length < K ∨ R < 1) := by omega
  obtain ⟨R', rfl⟩ : ∃ R', R = R' + 1 := ⟨R - 1, by omega⟩
  rw [cluster, if_neg hcond, restartResults]
  refine ⟨_, rfl, ?_⟩
  have hmem := selectBest_mem
    (restartResults (segments.map phi) K maxIter (lcgIter seed K) R')
    (runAssign (segments.map phi) K maxIter seed,
     runDispersion (segments.map phi) K maxIter seed)
  have hspec := restartResults_spec (segments.map phi) K maxIter (by omega)
    (R' + 1) seed _ (by rw [restartResults]; exact hmem)
  simpa [List.length_map] using hspec

/-- Witness for claim C4: one segment, one cluster, one restart. -/
theorem cluster_label_count_and_range_witness :
    ∃ labels,
      cluster (fun _ => ((0 : Rat), (0 : Rat))) 0 [⟨0, 0, 1, 0⟩] 1 1 0 = .ok labels ∧
        labels.length = [(⟨0, 0, 1, 0⟩ : Segment)].length ∧ ∀ l ∈ labels, l < 1 :=
  cluster_label_count_and_range (fun _ => ((0 : Rat), (0 : Rat))) 0 [⟨0, 0, 1, 0⟩] 1 1 0
    (by decide) (by decide) (by decide)

/-- Claim C6: cluster fails fast with InvalidParameter whenever K > N, K < 1,
or N = 0 with K ≥ 1; the parameters are never silently clamped. -/
theorem cluster_invalid_parameter_fails (phi : Segment → Feature) (seed : Nat)
    (segments : List Segment) (K R maxIter : Nat)
    (h : segments.length < K ∨ K < 1 ∨ (segments.length = 0 ∧ 1 ≤ K)) :
    cluster phi seed segments K R maxIter = .error .invalidParameter := by
  have hcond : K < 1 ∨ segments.length < K ∨ R < 1 := by omega
  rw [cluster, if_pos hcond]

/-- Witness for claim C6: clustering an empty collection with K = 1 fails. -/
theorem cluster_invalid_parameter_fails_witness :
    cluster (fun _ => ((0 : Rat), (0 : Rat))) 0 [] 1 1 0 = .error .invalidParameter :=
  cluster_invalid_parameter_fails (fun _ => ((0 : Rat), (0 : Rat))) 0 [] 1 1 0
    (by decide)

/-- Claim C7: the restart whose assignment cluster keeps achieves dispersion ≤
every other restart of the same call, and every restart preceding it in restart
order has strictly larger dispersion — so on an exact tie the first restart
encountered is the one kept. -/
theorem cluster_min_dispersion_first_tie (phi : Segment → Feature) (seed : Nat)
    (segments : List Segment) (K R maxIter : Nat)
    (hK : 1 ≤ K) (hKN : K ≤ segments.length) (hR : 1 ≤ R) :
    ∃ best pre post,
      restartResults (segments.map phi) K maxIter seed R = pre ++ best :: post ∧
        cluster phi seed segments K R maxIter = .ok best.1 ∧
        (∀ x ∈ pre, best.2 < x.2) ∧
        (∀ x ∈ post, best.2 ≤ x.2) := by
  have hcond : ¬(K < 1 ∨ segments.length < K ∨ R < 1) := by omega
  obtain ⟨R', rfl⟩ : ∃ R', R = R' + 1 := ⟨R - 1, by omega⟩
  obtain ⟨pre, post, hdec, hpre, hpost⟩ := selectBest_spec
    (restartResults (segments.map phi) K maxIter (lcgIter seed K) R')
    (runAssign (segments.map phi) K maxIter seed,
     runDispersion (segments.map phi) K maxIter seed)
  refine ⟨_, pre, post, ?_, ?_, hpre, hpost⟩
  · rw [restartResults]
    exact hdec
  · rw [cluster, if_neg hcond, restartResults]

/-- Witness for claim C7: one segment, one cluster, one restart. -/
theorem cluster_min_dispersion_first_tie_witness :
    ∃ best pre post,
      restartResults ([(⟨0, 0, 1, 0⟩ : Segment)].map (fun _ => ((0 : Rat), (0 : Rat))))
          1 0 0 1 = pre ++ best :: post ∧
        cluster (fun _ => ((0 : Rat), (0 : Rat))) 0 [⟨0, 0, 1, 0⟩] 1 1 0 = .ok best.1 ∧
        (∀ x ∈ pre, best.2 < x.2) ∧
        (∀ x ∈ post, best.2 ≤ x.2) :=
  cluster_min_dispersion_first_tie (fun _ => ((0 : Rat), (0 : Rat))) 0 [⟨0, 0, 1, 0⟩]
    1 1 0 (by decide) (by decide) (by decide)

/-- Claim C8: with the restart order fixed by the generator state threaded from
the seed, two cluster calls with the same seed on the same input yield
identical assignments. -/
theorem cluster_deterministic (phi : Segment → Feature) (segments : List Segment)
    (K R maxIter seed1 seed2 : Nat) (h : seed1 = seed2) :
    cluster phi seed1 segments K R maxIter = cluster phi seed2 segments K R maxIter := by
  rw [h]

/-- Witness for claim C8 at a concrete seed and input. -/
theorem cluster_deterministic_witness :
    cluster (fun _ => ((0 : Rat), (0 : Rat))) 7 [⟨0, 0, 1, 0⟩] 1 1 0 =
      cluster (fun _ => ((0 : Rat), (0 : Rat))) 7 [⟨0, 0, 1, 0⟩] 1 1 0 :=
  cluster_deterministic (fun _ => ((0 : Rat), (0 : Rat))) [⟨0, 0, 1, 0⟩] 1 1 0 7 7 rfl

/-- Claim C5: every segment returned by detect satisfies the length threshold
(stated on squared lengths, equivalently for the nonnegative Euclidean length)
and the vote-support threshold, and no segment appears twice in the output. -/
theorem detect_output_guarantees (edges : EdgeMap) (candidates : List Segment)
    (params : LineDetectorParams) :
    (detect edges candidates params).Nodup ∧
      ∀ s ∈ detect edges candidates params,
        (params.min_line_length : Int) * (params.min_line_length : Int) ≤ lengthSq s ∧
          params.min_num_votes ≤ voteSupport edges s := by
  refine ⟨List.nodup_dedup _, fun s hs => ?_⟩
  rw [detect, List.mem_dedup, List.mem_filter] at hs
  have hcond := hs.2
  simp only [Bool.and_eq_true, decide_eq_true_eq] at hcond
  exact hcond

/-- Witness for claim C5: a two-pixel edge map, one accepted candidate. -/
theorem detect_output_guarantees_witness :
    (detect [((0 : Int), (0 : Int)), (1, 0)] [⟨0, 0, 3, 0⟩] ⟨1, 1, 1⟩).Nodup ∧
      ((1 : Int) * 1 ≤ lengthSq ⟨0, 0, 3, 0⟩ ∧
        1 ≤ voteSupport [((0 : Int), (0 : Int)), (1, 0)] ⟨0, 0, 3, 0⟩) :=
  ⟨(detect_output_guarantees [((0 : Int), (0 : Int)), (1, 0)] [⟨0, 0, 3, 0⟩] ⟨1, 1, 1⟩).1,
    (detect_output_guarantees [((0 : Int), (0 : Int)), (1, 0)] [⟨0, 0, 3, 0⟩] ⟨1, 1, 1⟩).2
      ⟨0, 0, 3, 0⟩ (by decide)⟩
